import Mathlib

/-!
Verification of the keystone secret-rotation engine against its
natural-language specification.

The Rust sources are shallowly embedded as pure Lean functions:
  * file-system state (lock file, cooldown marker, pool file, env files,
    audit log) is threaded explicitly through a `SysState` record;
  * wall-clock timestamps are integers counting seconds;
  * the ChaCha20-Poly1305 AEAD and the ed25519 signature scheme are
    parameters of the definitions that use them (the surrounding
    byte-plumbing — nonce handling, base64, serialization — is embedded
    concretely);
  * `anyhow` errors become structured error values;
  * a Rust panic is modelled as `Option.none` in the few places where one
    is reachable (byte-slicing in `mask_secret`).
-/

namespace Keystone

/-! ## Key pool (src/pool.rs) -/
inductive KeyStatus
  | active
  | exhausted
  | available
deriving DecidableEq, Repr

/-- One pre-provisioned pool key, mirroring `PoolKey` in src/pool.rs.
Timestamps are seconds as integers. -/
structure PoolKey where
  encrypted_value : String
  status : KeyStatus
  last_used : Option Int
  rate_limit_hit : Option Int
  usage_count : Nat
deriving DecidableEq, Repr

/-- The persisted pool structure, mirroring `KeyPool` in src/pool.rs. -/
structure KeyPool where
  secret_name : String
  keys : List PoolKey
  current_index : Nat
  last_rotation : Option Int
deriving DecidableEq, Repr

/-- Errors raised by pool operations (the `anyhow::bail!` messages of
src/pool.rs, structured). -/
inductive PoolErr
  | noKeysInPool
  | poolExhausted
  | keyNotFound
  | decryptFailed
deriving DecidableEq, Repr

def count_available (p : KeyPool) : Nat :=
  (p.keys.filter (fun k => k.status = KeyStatus.available)).length

def count_exhausted (p : KeyPool) : Nat :=
  (p.keys.filter (fun k => k.status = KeyStatus.exhausted)).length

def count_active (p : KeyPool) : Nat :=
  (p.keys.filter (fun k => k.status = KeyStatus.active)).length

/-- The scan loop of `get_next_available` (src/pool.rs lines 81-94): find the
first key with status `Available`, promote it to `Active`, stamp `last_used`,
increment `usage_count`.  Returns the updated key list together with the
found key (pre-update, whose encrypted value is then decrypted) and its
index. -/
def selectFirstAvailable (now : Int) : List PoolKey → Option (List PoolKey × PoolKey × Nat)
  | [] => none
  | k :: rest =>
    if k.status = KeyStatus.available then
      some ({ k with
                status := KeyStatus.active
                last_used := some now
                usage_count := k.usage_count + 1 } :: rest, k, 0)
    else
      (selectFirstAvailable now rest).map (fun r => (k :: r.1, r.2.1, r.2.2 + 1))

/-- The function `KeyPool::get_next_available` (src/pool.rs lines 76-101).  `decrypt` is
the ChaCha20-Poly1305 decryption under the local `encryption-key`, a
parameter of the model.  Returns the mutated pool together with the result;
on an error the pool is returned unchanged (no key matched, or the pool was
empty). -/
def get_next_available (decrypt : String → Except PoolErr String) (now : Int)
    (p : KeyPool) : KeyPool × Except PoolErr String :=
  if p.keys.isEmpty then
    (p, Except.error PoolErr.noKeysInPool)
  else
    match selectFirstAvailable now p.keys with
    | some (keys', k, i) =>
        ({ p with current_index := i, keys := keys', last_rotation := some now },
         decrypt k.encrypted_value)
    | none => (p, Except.error PoolErr.poolExhausted)

/-- The loop body of `KeyPool::mark_exhausted` (src/pool.rs lines 103-116):
decrypt each stored key in order and transition the first plaintext match to
`Exhausted`.  A decryption failure propagates (aborting with no mutation, as
the Rust `?` does); no match yields `KeyNotFound`. -/
def markExhaustedKeys (decrypt : String → Except PoolErr String) (now : Int)
    (value : String) : List PoolKey → Except PoolErr (List PoolKey)
  | [] => Except.error PoolErr.keyNotFound
  | k :: rest =>
    match decrypt k.encrypted_value with
    | Except.error _ => Except.error PoolErr.decryptFailed
    | Except.ok d =>
      if d = value then
        Except.ok ({ k with status := KeyStatus.exhausted, rate_limit_hit := some now } :: rest)
      else
        (markExhaustedKeys decrypt now value rest).map (fun ks => k :: ks)

/-- The function `KeyPool::mark_exhausted` (src/pool.rs lines 103-116). -/
def mark_exhausted (decrypt : String → Except PoolErr String) (now : Int)
    (value : String) (p : KeyPool) : Except PoolErr KeyPool :=
  (markExhaustedKeys decrypt now value p.keys).map (fun ks => { p with keys := ks })

/-- The state effect of one `get_next_available` call (the returned pool,
dropping the decrypted value). -/
def gnaStep (decrypt : String → Except PoolErr String) (now : Int) (p : KeyPool) : KeyPool :=
  (get_next_available decrypt now p).1

/-- A decryption oracle for concrete runs: every stored value decrypts to
itself. -/
def decryptId : String → Except PoolErr String := fun s => Except.ok s

/-- A concrete two-key pool, both keys `Available`. -/
def poolTwoAvail : KeyPool :=
  { secret_name := "API_KEY"
    keys := [ { encrypted_value := "k1", status := KeyStatus.available,
                last_used := none, rate_limit_hit := none, usage_count := 0 },
              { encrypted_value := "k2", status := KeyStatus.available,
                last_used := none, rate_limit_hit := none, usage_count := 0 } ]
    current_index := 0
    last_rotation := none }

/-! ### Pool lemmas for the status-count invariant -/
/-- The record update `get_next_available` performs on the selected key. -/
def activateK (now : Int) (k : PoolKey) : PoolKey :=
  { k with status := KeyStatus.active, last_used := some now,
           usage_count := k.usage_count + 1 }

/-! ## Secret masking (src/connectors/mod.rs, `mask_secret`)

In Rust, `secret.len()` is the byte length of the UTF-8 encoding, and
`&secret[secret.len() - 4..]` byte-slices the string, panicking when the
start index is not a character boundary.  The index `len - 4` is a character
boundary exactly when some suffix of the character sequence has UTF-8 byte
length 4; the slice is then that suffix.  A panic is modelled as `none`. -/
/-- UTF-8 byte length of a character sequence. -/
def utf8Len (cs : List Char) : Nat := (cs.map Char.utf8Size).sum

/-- The unique character suffix whose UTF-8 encoding is exactly `target`
bytes long, when the corresponding byte index is a character boundary. -/
def suffixOfByteLen (target : Nat) : List Char → Option (List Char)
  | [] => if target = 0 then some [] else none
  | c :: rest =>
      if utf8Len (c :: rest) = target then some (c :: rest)
      else suffixOfByteLen target rest

/-- The function `mask_secret` (src/connectors/mod.rs lines 20-26). -/
def mask_secret (s : String) : Option String :=
  if utf8Len s.data ≤ 4 then some "***"
  else
    match suffixOfByteLen 4 s.data with
    | some cs => some ("***" ++ String.mk cs)
    | none => none

/-! ## Errors of the orchestration layer

The `anyhow` failure messages of src/lock.rs, src/rotation.rs, src/dev.rs
and src/rollback.rs, structured so theorems can name them. -/
inductive RotErr
  | missingSecretName
  | missingEnv
  | lockHeld (pid : Nat) (operation : String) (age : Int)
  | cooldownActive (remaining : Int)
  | envFileNotFound (path : String)
  | serviceRequired
  | prodFailed
  | notEnoughHistory (found : Nat)
  | noStoredValue
  | decryptionFailed
  | base64Failed
  | ciphertextTooShort
deriving DecidableEq, Repr

/-! ## Lock (src/lock.rs) -/
/-- The persisted lock record (`LockData` in src/lock.rs). -/
structure LockData where
  pid : Nat
  timestamp : Int
  operation : String
deriving DecidableEq, Repr

/-- A `Lock` instance together with the lock file it guards: `file` is the
contents of `locks/{env}-{secret}.lock` (`none` when absent) and `acquired`
is the own flag of the instance. -/
structure LockState where
  file : Option LockData
  acquired : Bool
deriving DecidableEq, Repr

/-- The stale-lock threshold, `Duration::minutes(5)` in seconds. -/
def staleLockSeconds : Int := 300

/-- The function `Lock::acquire` (src/lock.rs lines 34-71): an existing record younger
than the stale threshold fails with the holder pid, operation and age;
a stale record is removed and a fresh record written. -/
def Lock.acquire (now : Int) (pid : Nat) (operation : String) (ls : LockState) :
    LockState × Except RotErr Unit :=
  match ls.file with
  | some ld =>
      if now - ld.timestamp < staleLockSeconds then
        (ls, Except.error (RotErr.lockHeld ld.pid ld.operation (now - ld.timestamp)))
      else
        ({ file := some { pid := pid, timestamp := now, operation := operation },
           acquired := true }, Except.ok ())
  | none =>
      ({ file := some { pid := pid, timestamp := now, operation := operation },
         acquired := true }, Except.ok ())

/-- The function `Lock::release` (src/lock.rs lines 73-79): remove the record only when
this instance acquired it and the file still exists.  `Drop for Lock` calls
exactly this, which the rotation model reflects by applying it on every exit
path after acquisition. -/
def Lock.release (ls : LockState) : LockState :=
  if ls.acquired && ls.file.isSome then { file := none, acquired := false } else ls

/-! ## Cooldown tracking (src/rotation.rs lines 102-140, src/config.rs) -/
/-- The default `default_cooldown_seconds` in src/config.rs. -/
def defaultCooldownSeconds : Int := 60

/-- The function `check_cooldown` (src/rotation.rs lines 102-129): `marker` is the parsed
contents of `cooldowns/{env}-{secret}` (`none` when the file is absent). -/
def check_cooldown (cooldownSeconds : Int) (marker : Option Int) (now : Int) :
    Except RotErr Unit :=
  match marker with
  | none => Except.ok ()
  | some last =>
      let elapsed := now - last
      if elapsed < cooldownSeconds then
        Except.error (RotErr.cooldownActive (cooldownSeconds - elapsed))
      else
        Except.ok ()

/-! ## Audit log (src/audit.rs)

The ed25519 signing is a parameter `sign`.  The serialization that is signed
(`serde_json::to_string` of the entry with its signature field emptied) is
injective in the remaining fields, so the model signs the cleared entry
itself.  The ChaCha20-Poly1305 value encryption under the local key is a
parameter `encrypt`. -/
inductive AuditAction
  | rotate
  | rollback
  | signal
deriving DecidableEq, Repr

/-- The structure `AuditEntry` (src/audit.rs lines 16-29).  Timestamps are seconds. -/
structure AuditEntry where
  timestamp : Int
  actor : String
  secret_name : String
  env : String
  service : Option String
  action : AuditAction
  success : Bool
  masked_secret_preview : Option String
  encrypted_secret_value : Option String
  signature : String
deriving DecidableEq, Repr

/-- The serialization-for-signing view of an entry: the entry with its
signature field emptied (src/audit.rs lines 143-147 and 173-175). -/
def clearSignature (e : AuditEntry) : AuditEntry := { e with signature := "" }

/-- The function `AuditLogger::log_with_value` (src/audit.rs lines 113-164), up to the
constructed entry: build the entry with an empty signature, sign that
serialization, fill the signature field in.  The caller appends the result
to the log file of the current day. -/
def log_with_value (sign : AuditEntry → String) (encrypt : String → String)
    (now : Int) (actor secret_name env : String) (service : Option String)
    (action : AuditAction) (success : Bool) (masked_secret_preview : Option String)
    (secret_value : Option String) : AuditEntry :=
  let entry : AuditEntry :=
    { timestamp := now
      actor := actor
      secret_name := secret_name
      env := env
      service := service
      action := action
      success := success
      masked_secret_preview := masked_secret_preview
      encrypted_secret_value := secret_value.map encrypt
      signature := "" }
  { entry with signature := sign entry }

/-- The function `AuditLogger::verify_entry` (src/audit.rs lines 166-181): re-serialize
with the signature cleared and check the stored signature against it. -/
def verify_entry (sign : AuditEntry → String) (e : AuditEntry) : Bool :=
  e.signature == sign (clearSignature e)

/-- The filter step of `AuditLogger::read_logs` (src/audit.rs lines 211-221). -/
def matchesFilters (secret_name env : Option String) (e : AuditEntry) : Bool :=
  (match secret_name with
   | some n => e.secret_name == n
   | none => true) &&
  (match env with
   | some v => e.env == v
   | none => true)

/-- The descending-timestamp order of `entries.sort_by(|a, b|
b.timestamp.cmp(&a.timestamp))` (src/audit.rs line 227). -/
def auditDesc (a b : AuditEntry) : Prop := b.timestamp ≤ a.timestamp

instance : DecidableRel auditDesc :=
  fun a b => inferInstanceAs (Decidable (b.timestamp ≤ a.timestamp))

/-- The function `AuditLogger::read_logs` (src/audit.rs lines 183-234): `entries` is the
concatenation of all parsed day-partition files; filter, stably sort
descending by timestamp, truncate. -/
def read_logs (entries : List AuditEntry) (secret_name env : Option String)
    (last : Option Nat) : List AuditEntry :=
  let filtered := entries.filter (matchesFilters secret_name env)
  let sorted := filtered.insertionSort auditDesc
  match last with
  | some n => sorted.take n
  | none => sorted

/-- The predicate of src/rollback.rs line 112: a successful `Rotate` entry. -/
def isSuccessfulRotate (e : AuditEntry) : Bool :=
  (match e.action with
   | AuditAction.rotate => true
   | _ => false) && e.success

/-- The function `get_previous_value` (src/rollback.rs lines 106-132): the second entry
of the descending-sorted successful-`Rotate` history carries the value that was active before the most recent rotation. -/
def get_previous_value (decrypt : String → Option String) (entries : List AuditEntry)
    (secret_name env : String) : Except RotErr String :=
  let es := read_logs entries (some secret_name) (some env) none
  let rotate_entries := es.filter isSuccessfulRotate
  match rotate_entries with
  | _ :: previous :: _ =>
      match previous.encrypted_secret_value with
      | some v =>
          match decrypt v with
          | some s => Except.ok s
          | none => Except.error RotErr.decryptionFailed
      | none => Except.error RotErr.noStoredValue
  | other => Except.error (RotErr.notEnoughHistory other.length)

/-! ## Base64 and at-rest value encryption (src/audit.rs lines 236-270,
identically src/pool.rs lines 203-235)

The AEAD itself (ChaCha20-Poly1305 under the persisted 32-byte key) is a
parameter; the surrounding plumbing — the fresh 12-byte nonce prepended to
the ciphertext, standard base64, the minimum-length check, the nonce/body
split at byte 12 — is embedded concretely.  Secret values appear here as
their UTF-8 byte sequences (`String::from_utf8` of the unchanged bytes
returns the original string). -/
def b64Alphabet : List Char :=
  "ABCDEFGHIJKLMNOPQRSTUVWXYZabcdefghijklmnopqrstuvwxyz0123456789+/".data

def b64chr (i : Nat) : Char := b64Alphabet.getD i 'A'

def b64idx (c : Char) : Option Nat := b64Alphabet.findIdx? (fun x => x == c)

/-- Standard base64 encoding of a byte list, three bytes per four output
characters, with `=` padding. -/
def b64E : List Nat → List Char
  | [] => []
  | [b0] => [b64chr (b0 / 4), b64chr (b0 % 4 * 16), '=', '=']
  | [b0, b1] =>
      [b64chr (b0 / 4), b64chr (b0 % 4 * 16 + b1 / 16), b64chr (b1 % 16 * 4), '=']
  | b0 :: b1 :: b2 :: rest =>
      b64chr (b0 / 4) :: b64chr (b0 % 4 * 16 + b1 / 16) ::
      b64chr (b1 % 16 * 4 + b2 / 64) :: b64chr (b2 % 64) :: b64E rest

def base64Encode (bs : List Nat) : String := String.mk (b64E bs)

/-- Standard base64 decoding, the inverse of `b64E`: four characters per
chunk, the final chunk possibly `=`-padded. -/
def b64D : List Char → Option (List Nat)
  | [] => some []
  | a :: b :: c :: d :: rest =>
      if c = '=' ∧ d = '=' ∧ rest = [] then do
        let i ← b64idx a
        let j ← b64idx b
        pure [i * 4 + j / 16]
      else if d = '=' ∧ rest = [] then do
        let i ← b64idx a
        let j ← b64idx b
        let k ← b64idx c
        pure [i * 4 + j / 16, j % 16 * 16 + k / 4]
      else do
        let i ← b64idx a
        let j ← b64idx b
        let k ← b64idx c
        let l ← b64idx d
        let tailBytes ← b64D rest
        pure ((i * 4 + j / 16) :: (j % 16 * 16 + k / 4) :: (k % 4 * 64 + l) :: tailBytes)
  | _ => none

def base64Decode (s : String) : Option (List Nat) := b64D s.data

/-- The function `AuditLogger::encrypt_secret` (src/audit.rs lines 236-250): AEAD-encrypt
under the local symmetric key with the fresh random `nonce`, prepend the
nonce, base64-encode. -/
def encrypt_secret (aeadEnc : List Nat → List Nat → List Nat) (nonce : List Nat)
    (secretBytes : List Nat) : String :=
  base64Encode (nonce ++ aeadEnc nonce secretBytes)

/-- The function `AuditLogger::decrypt_secret` (src/audit.rs lines 252-270): base64-decode,
require at least 12 bytes, split the nonce off, AEAD-decrypt the remainder. -/
def decrypt_secret (aeadDec : List Nat → List Nat → Option (List Nat))
    (encrypted : String) : Except RotErr (List Nat) :=
  match base64Decode encrypted with
  | none => Except.error RotErr.base64Failed
  | some combined =>
      if combined.length < 12 then Except.error RotErr.ciphertextTooShort
      else
        match aeadDec (combined.take 12) (combined.drop 12) with
        | none => Except.error RotErr.decryptionFailed
        | some pt => Except.ok pt

/-! ## Random secret generation (src/rotation.rs lines 142-156) -/
/-- The `CHARSET` of `generate_secret`. -/
def secretCharset : List Char :=
  "ABCDEFGHIJKLMNOPQRSTUVWXYZabcdefghijklmnopqrstuvwxyz0123456789".data

/-- The function `generate_secret`: 32 characters drawn from the 62-character alphanumeric
charset; the thread-rng draws are the parameter `rng`. -/
def generate_secret (rng : Nat → Fin 62) : String :=
  String.mk ((List.range 32).map (fun i => secretCharset.getD (rng i) 'A'))

/-! ## Dev-mode environment files (src/dev.rs) -/
/-- Split a character sequence at every occurrence of `sep`, keeping empty
segments (the behaviour of `str::split` with a one-character pattern). -/
def chSplit (sep : Char) : List Char → List (List Char)
  | [] => [[]]
  | c :: rest =>
      match chSplit sep rest with
      | [] => [[c]]
      | g :: gs => if c = sep then [] :: g :: gs else (c :: g) :: gs

/-- Join character segments with `sep` between them. -/
def chIntercalate (sep : Char) : List (List Char) → List Char
  | [] => []
  | [g] => g
  | g :: gs => g ++ sep :: chIntercalate sep gs

/-- The Rust `str::trim` on the character sequence (whitespace stripped from
both ends). -/
def trimChars (cs : List Char) : List Char :=
  ((cs.dropWhile Char.isWhitespace).reverse.dropWhile Char.isWhitespace).reverse

/-- The Rust `str::lines`: split at line feeds, drop the final empty segment
produced by a trailing newline, strip one trailing carriage return per
line. -/
def rustLines (s : String) : List String :=
  let parts := chSplit '\n' s.data
  let kept := if parts.getLast? = some [] then parts.dropLast else parts
  kept.map (fun l => String.mk (if l.getLast? = some '\r' then l.dropLast else l))

/-- The `trimmed.starts_with('#') || trimmed.is_empty()` test shared by
`update_env_file` and `get_env_secret` (src/dev.rs lines 31, 81). -/
def isSkipLine (line : String) : Bool :=
  match trimChars line.data with
  | [] => true
  | c :: _ => c = '#'

/-- The `line.find('=')` / `line[..pos].trim()` step shared by
`update_env_file` and `get_env_secret`: the trimmed text before the first
equals sign, when the line has one. -/
def envLineKey (line : String) : Option String :=
  if line.data.contains '=' then
    some (String.mk (trimChars ((chSplit '=' line.data).headD [])))
  else none

/-- The text after the first equals sign (`line[pos + 1..]`). -/
def afterFirstEq (line : String) : String :=
  String.mk (chIntercalate '=' ((chSplit '=' line.data).tail))

/-- The function `get_env_secret` (src/dev.rs lines 65-95) applied to the file contents:
scan the lines, skip comments and blanks, return the trimmed value of the
first line whose key matches. -/
def get_env_secret (secret_name contents : String) : Option String :=
  (rustLines contents).findSome? (fun line =>
    if isSkipLine line then none
    else
      match envLineKey line with
      | some key =>
          if key = secret_name then some (String.mk (trimChars (afterFirstEq line).data))
          else none
      | none => none)

/-- The body of the rewrite loop of `update_env_file` (src/dev.rs lines
28-48): comments and blank lines are pushed through, a line whose key
matches is replaced by `KEY=newvalue` and sets the `found` flag, anything
else is pushed through. -/
def updateEnvStep (secret_name new_value : String) (acc : List Char × Bool)
    (line : String) : List Char × Bool :=
  if isSkipLine line then (acc.1 ++ line.data ++ ['\n'], acc.2)
  else
    match envLineKey line with
    | some key =>
        if key = secret_name then
          (acc.1 ++ secret_name.data ++ '=' :: new_value.data ++ ['\n'], true)
        else (acc.1 ++ line.data ++ ['\n'], acc.2)
    | none => (acc.1 ++ line.data ++ ['\n'], acc.2)

/-- The rewrite of `update_env_file` (src/dev.rs lines 25-52): run the loop
over the lines; if no line matched, append `KEY=newvalue`. -/
def update_env_file_contents (secret_name new_value contents : String) : String :=
  let r := (rustLines contents).foldl (updateEnvStep secret_name new_value) ([], false)
  String.mk (if r.2 then r.1 else r.1 ++ secret_name.data ++ '=' :: new_value.data ++ ['\n'])

/-- Whether the key of a line matches the secret name (and the line is not a
comment or blank). -/
def isMatchLine (secret_name line : String) : Bool :=
  !isSkipLine line &&
    (match envLineKey line with
     | some key => key == secret_name
     | none => false)

/-- Specification view of the rewrite of a single line: comments and blanks
are kept, a line whose key matches the secret is replaced, anything else is
kept. -/
def replaceLineSpec (secret_name new_value line : String) : String :=
  if isSkipLine line then line
  else if isMatchLine secret_name line then
    String.mk (secret_name.data ++ '=' :: new_value.data)
  else line

/-- Specification view of the whole rewrite: map the per-line replacement
over the lines of the file, appending `KEY=newvalue` when no line matched. -/
def update_env_spec (secret_name new_value contents : String) : List String :=
  let ls := rustLines contents
  let replaced := ls.map (replaceLineSpec secret_name new_value)
  if ls.any (isMatchLine secret_name) then replaced
  else replaced ++ [String.mk (secret_name.data ++ '=' :: new_value.data)]

/-! ## File-system model for the orchestration layer -/
/-- A tiny path-indexed file store (association list): read a file. -/
def getFile : List (String × String) → String → Option String
  | [], _ => none
  | f :: rest, path => if f.1 == path then some f.2 else getFile rest path

/-- Write (create or overwrite) a file in the store. -/
def setFile : List (String × String) → String → String → List (String × String)
  | [], path, contents => [(path, contents)]
  | f :: rest, path, contents =>
      if f.1 == path then (path, contents) :: rest
      else f :: setFile rest path contents

/-- The function `update_env_file` (src/dev.rs lines 5-63) over the file store: fail when
the environment file is absent, write the full original contents to the
fixed side-path `.birch-rollback`, then rewrite the environment file. -/
def update_env_file (secret_name new_value : String) (env_file : Option String)
    (files : List (String × String)) : Except RotErr (List (String × String)) :=
  let env_path := env_file.getD ".env"
  match getFile files env_path with
  | none => Except.error (RotErr.envFileNotFound env_path)
  | some original =>
      Except.ok (setFile (setFile files ".birch-rollback" original) env_path
        (update_env_file_contents secret_name new_value original))

/-! ## Rotation orchestrator (src/rotation.rs)

`SysState` is the process-external persisted state the rotation touches:
the lock file for the (env, secret) key, the cooldown marker, the key-pool
file for the secret, local files (environment files and the rollback
side-file), the audit log, plus a trace of connector secret updates.
`Ctx` carries the ambient inputs: the clock, the process id, the actor,
the configured cooldown, and the external collaborators (pool-value AEAD,
audit AEAD, audit signing, the thread rng, connector reads, and the whole
interactive production-update path of src/prod.rs, which the spec treats
as an external collaborator). -/
structure SysState where
  lockFile : Option LockData
  cooldown : Option Int
  pool : Option KeyPool
  files : List (String × String)
  audit : List AuditEntry
  connectorWrites : List (String × String)
deriving DecidableEq, Repr

structure Ctx where
  now : Int
  pid : Nat
  actor : String
  cooldownSeconds : Int
  decrypt : String → Except PoolErr String
  encrypt : String → String
  sign : AuditEntry → String
  rng : Nat → Fin 62
  connGet : String → String → Option String
  prodApply : String → String → Option String → Bool → Except RotErr Unit

/-- The function `get_current_secret_value` (src/rotation.rs lines 158-186), collapsed to
`Option`: the caller only distinguishes success from failure (`if let Ok`).
In dev it reads the default `.env` file (the source passes `None` for the
path even when rotation was given a custom one); otherwise it reads through
the connector of the named service (`ctx.connGet`, `none` covering the
missing-service and unknown-service failures). -/
def get_current_secret_value (ctx : Ctx) (secret_name env : String)
    (service : Option String) (files : List (String × String)) : Option String :=
  if env = "dev" then
    match getFile files ".env" with
    | some contents => get_env_secret secret_name contents
    | none => none
  else
    match service with
    | some s => ctx.connGet s secret_name
    | none => none

/-- The value-acquisition block of `rotate` (src/rotation.rs lines 30-61):
explicit value first; else, when a pool exists, best-effort mark the current
deployed value exhausted, take the next available key and persist the pool
(`pool.save()` runs only on that success path — on `PoolExhausted` the
in-memory mutations are dropped and a random secret is generated instead);
else generate a random secret.  Returns the persisted pool file contents
together with the chosen value. -/
def acquireNewValue (ctx : Ctx) (value : Option String) (pool : Option KeyPool)
    (currentRead : Option String) : Option KeyPool × String :=
  match value with
  | some v => (pool, v)
  | none =>
      match pool with
      | some p =>
          let p1 := match currentRead with
            | some current =>
                match mark_exhausted ctx.decrypt ctx.now current p with
                | Except.ok p2 => p2
                | Except.error _ => p
            | none => p
          match get_next_available ctx.decrypt ctx.now p1 with
          | (p2, Except.ok next_key) => (some p2, next_key)
          | (_, Except.error _) => (some p, generate_secret ctx.rng)
      | none => (none, generate_secret ctx.rng)

/-- The `Drop for Lock` release applied when the rotation scope exits after
a successful acquire. -/
def releaseLock (st : SysState) : SysState :=
  { st with lockFile := (Lock.release { file := st.lockFile, acquired := true }).file }

/-- The function `rotate` (src/rotation.rs lines 7-100).  The returned value is the new
secret on success; `Option.none` models a process abort (the only reachable
panic is the byte-slice in `mask_secret`).  The lock is released on every
path after acquisition (the scoped Rust `Drop`). -/
def rotate (ctx : Ctx) (secret_name env service : Option String)
    (redeploy : Bool) (value : Option String) (env_file : Option String)
    (dry_run : Bool) (st : SysState) : Option (SysState × Except RotErr String) :=
  match secret_name with
  | none => some (st, Except.error RotErr.missingSecretName)
  | some secret =>
  match env with
  | none => some (st, Except.error RotErr.missingEnv)
  | some envName =>
  match Lock.acquire ctx.now ctx.pid "rotate" { file := st.lockFile, acquired := false } with
  | (_, Except.error e) => some (st, Except.error e)
  | (ls1, Except.ok _) =>
  let st1 : SysState := { st with lockFile := ls1.file }
  match check_cooldown ctx.cooldownSeconds st1.cooldown ctx.now with
  | Except.error e => some (releaseLock st1, Except.error e)
  | Except.ok _ =>
  let acq := acquireNewValue ctx value st1.pool
    (get_current_secret_value ctx secret envName service st1.files)
  let st2 : SysState := { st1 with pool := acq.1 }
  let new_value := acq.2
  match mask_secret new_value with
  | none => none
  | some masked =>
  if dry_run then some (releaseLock st2, Except.ok new_value)
  else
    if envName = "dev" then
      match update_env_file secret new_value env_file st2.files with
      | Except.error e => some (releaseLock st2, Except.error e)
      | Except.ok files2 =>
          let entry := log_with_value ctx.sign ctx.encrypt ctx.now ctx.actor secret
            envName service AuditAction.rotate true (some masked) (some new_value)
          some (releaseLock { st2 with
                  files := files2
                  cooldown := some ctx.now
                  audit := st2.audit ++ [entry] }, Except.ok new_value)
    else
      match ctx.prodApply secret new_value service redeploy with
      | Except.error e => some (releaseLock st2, Except.error e)
      | Except.ok _ =>
          let entry := log_with_value ctx.sign ctx.encrypt ctx.now ctx.actor secret
            envName service AuditAction.rotate true (some masked) (some new_value)
          some (releaseLock { st2 with
                  connectorWrites := st2.connectorWrites ++ [(secret, new_value)]
                  cooldown := some ctx.now
                  audit := st2.audit ++ [entry] }, Except.ok new_value)

/-! ### Concrete fixtures -/
/-- A concrete ambient context: identity pool decryption and audit
encryption, signing by a projection, a constant rng, no connector reads,
an always-succeeding production path. -/
def ctxC : Ctx :=
  { now := 1000
    pid := 42
    actor := "alice"
    cooldownSeconds := 60
    decrypt := decryptId
    encrypt := fun s => s
    sign := fun e => e.secret_name
    rng := fun _ => 0
    connGet := fun _ _ => none
    prodApply := fun _ _ _ _ => Except.ok () }

/-- A pool holding a single `Available` key. -/
def poolOneAvail : KeyPool :=
  { secret_name := "API_KEY"
    keys := [ { encrypted_value := "k1", status := KeyStatus.available,
                last_used := none, rate_limit_hit := none, usage_count := 0 } ]
    current_index := 0
    last_rotation := none }

/-- The pool `poolOneAvail` after its key was selected at time 1000. -/
def poolOneActive : KeyPool :=
  { secret_name := "API_KEY"
    keys := [ { encrypted_value := "k1", status := KeyStatus.active,
                last_used := some 1000, rate_limit_hit := none, usage_count := 1 } ]
    current_index := 0
    last_rotation := some 1000 }

/-- A pool whose only key is `Exhausted`. -/
def poolOneExhausted : KeyPool :=
  { secret_name := "API_KEY"
    keys := [ { encrypted_value := "k1", status := KeyStatus.exhausted,
                last_used := none, rate_limit_hit := some 0, usage_count := 3 } ]
    current_index := 0
    last_rotation := some 0 }

/-- Initial system state for the dry-run scenario: no lock, no cooldown
marker, the one-key pool, an environment file holding the old value. -/
def stDry : SysState :=
  { lockFile := none
    cooldown := none
    pool := some poolOneAvail
    files := [(".env", "API_KEY=old\n")]
    audit := []
    connectorWrites := [] }

/-- A lock state held by another process (pid 7) since time 0. -/
def lsHeld : LockState :=
  { file := some { pid := 7, timestamp := 0, operation := "rotate" }
    acquired := false }

/-- A concrete signing function for witnesses: sign by the secret name (any
function of the cleared entry works; collision-freedom is checked at the
concrete pair used). -/
def signByName : AuditEntry → String := fun e => e.secret_name

/-- A concretely logged entry. -/
def entryLogged : AuditEntry :=
  log_with_value signByName (fun s => s) 0 "alice" "API_KEY" "dev" none
    AuditAction.rotate true (some "***alue") (some "newvalue")

/-- The entry `entryLogged` with one non-signature field mutated after logging. -/
def entryMutated : AuditEntry := { entryLogged with secret_name := "OTHER" }

/-- Two successful `Rotate` audit entries for the same secret and env; the
older one carries the previously active value. -/
def auditOld : AuditEntry :=
  { timestamp := 10, actor := "alice", secret_name := "API_KEY", env := "dev",
    service := none, action := AuditAction.rotate, success := true,
    masked_secret_preview := none, encrypted_secret_value := some "older-value",
    signature := "s1" }

def auditNew : AuditEntry :=
  { timestamp := 20, actor := "alice", secret_name := "API_KEY", env := "dev",
    service := none, action := AuditAction.rotate, success := true,
    masked_secret_preview := none, encrypted_secret_value := some "newer-value",
    signature := "s2" }

instance : IsTotal AuditEntry auditDesc :=
  ⟨fun a b => Int.le_total b.timestamp a.timestamp⟩

instance : IsTrans AuditEntry auditDesc :=
  ⟨fun _ _ _ hab hbc => le_trans hbc hab⟩

/-- Fixture: the dev-mode scenario file from the spec. -/
def envFixture : String := "# note\nAPI_KEY=old\nOTHER=unchanged\n"

def envFilesC : List (String × String) := [(".env", envFixture)]

lemma selectFirstAvailable_eq_activate (now : Int) (k : PoolKey) (rest : List PoolKey)
    (h : k.status = KeyStatus.available) :
    selectFirstAvailable now (k :: rest) = some (activateK now k :: rest, k, 0) := by
  simp [selectFirstAvailable, h, activateK]

lemma selectFirstAvailable_append_avail (now : Int) :
    ∀ (as : List PoolKey) (b : PoolKey) (bs : List PoolKey),
      (∀ k ∈ as, k.status = KeyStatus.active) → b.status = KeyStatus.available →
      selectFirstAvailable now (as ++ b :: bs) =
        some (as ++ activateK now b :: bs, b, as.length) := by
  intro as
  induction as with
  | nil =>
      intro b bs _ hb
      simpa using selectFirstAvailable_eq_activate now b bs hb
  | cons a as ih =>
      intro b bs ha hb
      have ha0 : a.status = KeyStatus.active := ha a (by simp)
      have hrec := ih b bs (fun k hk => ha k (by simp [hk])) hb
      simp [selectFirstAvailable, ha0, hrec]

lemma selectFirstAvailable_none (now : Int) :
    ∀ (ks : List PoolKey), (∀ k ∈ ks, k.status ≠ KeyStatus.available) →
      selectFirstAvailable now ks = none := by
  intro ks
  induction ks with
  | nil => intro _; rfl
  | cons k rest ih =>
      intro h
      have hk : k.status ≠ KeyStatus.available := h k (by simp)
      have hrest := ih (fun x hx => h x (by simp [hx]))
      simp [selectFirstAvailable, hk, hrest]

lemma gnaStep_drain (decrypt : String → Except PoolErr String) (now : Int) :
    ∀ (m : Nat) (p : KeyPool) (as bs : List PoolKey),
      p.keys = as ++ bs → (∀ k ∈ as, k.status = KeyStatus.active) →
      (∀ k ∈ bs, k.status = KeyStatus.available) → bs.length = m →
      ((gnaStep decrypt now)^[m] p).keys = as ++ bs.map (activateK now) := by
  intro m
  induction m with
  | zero =>
      intro p as bs hk _ _ hlen
      have hbs : bs = [] := List.length_eq_zero.mp hlen
      simp [hbs] at hk
      simp [hk, hbs]
  | succ m ih =>
      intro p as bs hk ha hb hlen
      cases bs with
      | nil => simp at hlen
      | cons b bs' =>
          have hbav : b.status = KeyStatus.available := hb b (by simp)
          have hsel := selectFirstAvailable_append_avail now as b bs' ha hbav
          have hne : p.keys.isEmpty = false := by simp [hk]
          have hstep : gnaStep decrypt now p =
              { p with current_index := as.length,
                       keys := as ++ activateK now b :: bs',
                       last_rotation := some now } := by
            simp [gnaStep, get_next_available, hne, hk, hsel]
          rw [Function.iterate_succ_apply, hstep]
          have hkeys2 :
              ({ p with current_index := as.length,
                        keys := as ++ activateK now b :: bs',
                        last_rotation := some now } : KeyPool).keys
                = (as ++ [activateK now b]) ++ bs' := by
            simp
          have hres := ih { p with current_index := as.length,
                                   keys := as ++ activateK now b :: bs',
                                   last_rotation := some now }
            (as ++ [activateK now b]) bs' hkeys2
            (by
              intro k hkmem
              rcases List.mem_append.mp hkmem with h1 | h2
              · exact ha k h1
              · simp at h2
                subst h2
                rfl)
            (fun k hkmem => hb k (by simp [hkmem]))
            (by simpa using hlen)
          rw [hres]
          simp

lemma filter_map_activate_avail (now : Int) (ks : List PoolKey) :
    (ks.map (activateK now)).filter (fun k => k.status = KeyStatus.available) = [] := by
  induction ks with
  | nil => rfl
  | cons k rest ih => simp [activateK, ih]

lemma filter_map_activate_active (now : Int) (ks : List PoolKey) :
    (ks.map (activateK now)).filter (fun k => k.status = KeyStatus.active)
      = ks.map (activateK now) := by
  induction ks with
  | nil => rfl
  | cons k rest ih => simp [activateK, ih]

/-- Claim C1 (amended): draining a pool of n `Available` keys with n calls to
`get_next_available` leaves `count_available() == 0` but `count_active() == n`
(every selected key becomes and stays `Active` — `get_next_available` never
demotes the previously active key); and `get_next_available` on a non-empty
pool with zero `Available` keys fails with the pool-exhausted error. -/
theorem pool_drain_counts (decrypt : String → Except PoolErr String) (now : Int)
    (p : KeyPool) (h : ∀ k ∈ p.keys, k.status = KeyStatus.available) :
    count_available ((gnaStep decrypt now)^[p.keys.length] p) = 0 ∧
    count_active ((gnaStep decrypt now)^[p.keys.length] p) = p.keys.length ∧
    (∀ q : KeyPool, q.keys ≠ [] → (∀ k ∈ q.keys, k.status ≠ KeyStatus.available) →
      (get_next_available decrypt now q).2 = Except.error PoolErr.poolExhausted) := by
  have hdrain := gnaStep_drain decrypt now p.keys.length p [] p.keys (by simp) (by simp) h rfl
  refine ⟨?_, ?_, ?_⟩
  · simp [count_available, hdrain, filter_map_activate_avail]
  · simp [count_active, hdrain, filter_map_activate_active]
  · intro q hne hnav
    have hsel := selectFirstAvailable_none now q.keys hnav
    have hne' : q.keys.isEmpty = false := by simpa using hne
    simp [get_next_available, hne', hsel]

/-- Witness for `pool_drain_counts` at the concrete two-key pool. -/
theorem pool_drain_counts_witness :
    count_available ((gnaStep decryptId 0)^[poolTwoAvail.keys.length] poolTwoAvail) = 0 ∧
    count_active ((gnaStep decryptId 0)^[poolTwoAvail.keys.length] poolTwoAvail)
      = poolTwoAvail.keys.length := by
  have h := pool_drain_counts decryptId 0 poolTwoAvail (by decide)
  exact ⟨h.1, h.2.1⟩

/-- Counterexample to claim C1 as stated: on a pool with two `Available` keys,
two calls to `get_next_available` leave two `Active` keys, not one —
the previously selected key is never demoted. -/
theorem pool_two_calls_two_active :
    count_available ((gnaStep decryptId 0)^[2] poolTwoAvail) = 0 ∧
    count_active ((gnaStep decryptId 0)^[2] poolTwoAvail) = 2 ∧
    ¬ count_active ((gnaStep decryptId 0)^[2] poolTwoAvail) = 1 := by
  decide

lemma suffixOfByteLen_sound (t : Nat) :
    ∀ (l cs : List Char), suffixOfByteLen t l = some cs →
      cs <:+ l ∧ utf8Len cs = t := by
  intro l
  induction l with
  | nil =>
      intro cs h
      by_cases ht : t = 0
      · simp [suffixOfByteLen, ht] at h
        subst h
        simp [utf8Len, ht]
      · simp [suffixOfByteLen, ht] at h
  | cons c rest ih =>
      intro cs h
      by_cases hl : utf8Len (c :: rest) = t
      · simp [suffixOfByteLen, hl] at h
        subst h
        exact ⟨List.suffix_refl _, hl⟩
      · simp [suffixOfByteLen, hl] at h
        rcases ih cs h with ⟨hsuf, hlen⟩
        exact ⟨hsuf.trans (List.suffix_cons c rest), hlen⟩

lemma suffixOfByteLen_none (t : Nat) :
    ∀ (l : List Char), suffixOfByteLen t l = none →
      ∀ cs : List Char, cs <:+ l → utf8Len cs ≠ t := by
  intro l
  induction l with
  | nil =>
      intro h cs hcs
      have hcs' : cs = [] := List.suffix_nil.mp hcs
      subst hcs'
      by_cases ht : t = 0
      · simp [suffixOfByteLen, ht] at h
      · simpa [utf8Len] using Ne.symm ht
  | cons c rest ih =>
      intro h cs hcs
      by_cases hl : utf8Len (c :: rest) = t
      · simp [suffixOfByteLen, hl] at h
      · simp [suffixOfByteLen, hl] at h
        rcases List.suffix_cons_iff.mp hcs with hcase | hcase
        · subst hcase
          exact hl
        · exact ih h cs hcase

/-- Claim C10 (amended): `mask_secret` returns the fixed mask for byte
length at most 4; for longer inputs it returns the mask followed by the
character suffix occupying exactly the final 4 bytes when the 4-byte
boundary is a character boundary, and panics (modelled `none`) otherwise;
any returned value exposes at most the final 4 bytes of the secret. -/
theorem mask_secret_spec (s : String) :
    (utf8Len s.data ≤ 4 → mask_secret s = some "***") ∧
    (4 < utf8Len s.data →
      ((∃ cs : List Char, cs <:+ s.data ∧ utf8Len cs = 4 ∧
          mask_secret s = some ("***" ++ String.mk cs)) ∨
       (mask_secret s = none ∧ ∀ cs : List Char, cs <:+ s.data → utf8Len cs ≠ 4))) ∧
    (∀ r : String, mask_secret s = some r →
      r = "***" ∨ ∃ cs : List Char, cs <:+ s.data ∧ utf8Len cs = 4 ∧
        r = "***" ++ String.mk cs) := by
  refine ⟨?_, ?_, ?_⟩
  · intro h
    simp [mask_secret, h]
  · intro h
    have h' : ¬ utf8Len s.data ≤ 4 := by omega
    cases hsel : suffixOfByteLen 4 s.data with
    | some cs =>
        rcases suffixOfByteLen_sound 4 s.data cs hsel with ⟨hsuf, hlen⟩
        exact Or.inl ⟨cs, hsuf, hlen, by simp [mask_secret, h', hsel]⟩
    | none =>
        exact Or.inr ⟨by simp [mask_secret, h', hsel],
          suffixOfByteLen_none 4 s.data hsel⟩
  · intro r hr
    by_cases h : utf8Len s.data ≤ 4
    · simp [mask_secret, h] at hr
      exact Or.inl hr.symm
    · cases hsel : suffixOfByteLen 4 s.data with
      | some cs =>
          rcases suffixOfByteLen_sound 4 s.data cs hsel with ⟨hsuf, hlen⟩
          simp [mask_secret, h, hsel] at hr
          exact Or.inr ⟨cs, hsuf, hlen, hr.symm⟩
      | none =>
          simp [mask_secret, h, hsel] at hr

/-- Witness for `mask_secret_spec`: a short secret masks to the fixed mask,
and a 6-character ASCII secret keeps its final 4 bytes. -/
theorem mask_secret_spec_witness :
    (utf8Len ("ab".data) ≤ 4 ∧ mask_secret "ab" = some "***") ∧
    mask_secret "secret" = some "***cret" :=
  ⟨⟨by decide, (mask_secret_spec "ab").1 (by decide)⟩, by decide⟩

/-- Counterexample to claim C10 as stated: on the two-character input
consisting of two Euro signs (6 UTF-8 bytes), the byte index `len - 4 = 2`
falls inside the first character, so the Rust slice panics — `mask_secret`
is not total. -/
theorem mask_secret_panics_on_euro_euro :
    mask_secret "€€" = none ∧ 4 < utf8Len ("€€".data) := by
  decide

/-! ### Lemmas about the lock and the rotation state machine -/
lemma releaseLock_cooldown (s : SysState) : (releaseLock s).cooldown = s.cooldown := rfl

lemma releaseLock_lockFile_of_some (s : SysState) (h : s.lockFile.isSome) :
    (releaseLock s).lockFile = none := by
  simp [releaseLock, Lock.release, h]

lemma Lock.acquire_ok_inv (now : Int) (pid : Nat) (op : String) (ls ls2 : LockState)
    (u : Unit) (h : Lock.acquire now pid op ls = (ls2, Except.ok u)) :
    ls2.file = some { pid := pid, timestamp := now, operation := op } ∧
    ls2.acquired = true := by
  cases hf : ls.file with
  | none =>
      simp [Lock.acquire, hf] at h
      rw [← h]
      exact ⟨rfl, rfl⟩
  | some ld =>
      by_cases hage : now - ld.timestamp < staleLockSeconds
      · simp [Lock.acquire, hf, hage] at h
      · simp [Lock.acquire, hf, hage] at h
        rw [← h]
        exact ⟨rfl, rfl⟩

lemma Lock.acquire_error_inv (now : Int) (pid : Nat) (op : String) (ls ls2 : LockState)
    (e : RotErr) (h : Lock.acquire now pid op ls = (ls2, Except.error e)) :
    ls2 = ls ∧ ∃ ld, ls.file = some ld ∧ now - ld.timestamp < staleLockSeconds ∧
      e = RotErr.lockHeld ld.pid ld.operation (now - ld.timestamp) := by
  cases hf : ls.file with
  | none => simp [Lock.acquire, hf] at h
  | some ld =>
      by_cases hage : now - ld.timestamp < staleLockSeconds
      · simp [Lock.acquire, hf, hage] at h
        exact ⟨h.1.symm, ld, rfl, hage, h.2.symm⟩
      · simp [Lock.acquire, hf, hage] at h

/-- Complete case analysis of a `rotate` run, sufficient for the frame
claims: how the cooldown marker, the audit log and the lock file relate
to the outcome. -/
lemma rotate_frame (ctx : Ctx) (sn env svc : Option String) (rd : Bool)
    (v ef : Option String) (dr : Bool) (st st' : SysState)
    (r : Except RotErr String)
    (h : rotate ctx sn env svc rd v ef dr st = some (st', r)) :
    (dr = true → st'.cooldown = st.cooldown ∧ st'.audit = st.audit ∧
       st'.files = st.files ∧ st'.connectorWrites = st.connectorWrites) ∧
    ((∃ e, r = Except.error e) → st'.cooldown = st.cooldown ∧ st'.audit = st.audit) ∧
    (dr = false → (∃ s, r = Except.ok s) → st'.cooldown = some ctx.now) ∧
    ((r ≠ Except.error RotErr.missingSecretName ∧ r ≠ Except.error RotErr.missingEnv ∧
       ∀ p o a, r ≠ Except.error (RotErr.lockHeld p o a)) → st'.lockFile = none) := by
  unfold rotate at h
  cases sn with
  | none =>
      simp at h
      rcases h with ⟨h1, h2⟩
      subst h1; subst h2
      refine ⟨?_, ?_, ?_, ?_⟩ <;> simp
  | some secret =>
  cases env with
  | none =>
      simp at h
      rcases h with ⟨h1, h2⟩
      subst h1; subst h2
      refine ⟨?_, ?_, ?_, ?_⟩ <;> simp
  | some envName =>
  simp only at h
  cases hacq : Lock.acquire ctx.now ctx.pid "rotate" { file := st.lockFile, acquired := false } with
  | mk ls1 acqr =>
  cases acqr with
  | error e =>
      rw [hacq] at h
      simp at h
      rcases h with ⟨h1, h2⟩
      subst h1; subst h2
      rcases Lock.acquire_error_inv _ _ _ _ _ _ hacq with ⟨_, ld, hld, hage, he⟩
      refine ⟨by simp, by simp, by simp, ?_⟩
      intro hne
      exact absurd rfl (he ▸ hne.2.2 ld.pid ld.operation (ctx.now - ld.timestamp))
  | ok u =>
  rw [hacq] at h
  simp only at h
  have hfile : ls1.file = some { pid := ctx.pid, timestamp := ctx.now, operation := "rotate" } :=
    (Lock.acquire_ok_inv _ _ _ _ _ _ hacq).1
  cases hcd : check_cooldown ctx.cooldownSeconds st.cooldown ctx.now with
  | error e =>
      rw [hcd] at h
      simp at h
      rcases h with ⟨h1, h2⟩
      subst h1; subst h2
      refine ⟨by simp [releaseLock], by simp [releaseLock], by simp, ?_⟩
      intro _
      exact releaseLock_lockFile_of_some _ (by simp [hfile])
  | ok u2 =>
  rw [hcd] at h
  simp only at h
  cases hmask : mask_secret (acquireNewValue ctx v st.pool
      (get_current_secret_value ctx secret envName svc st.files)).2 with
  | none =>
      rw [hmask] at h
      simp at h
  | some masked =>
  rw [hmask] at h
  simp only at h
  cases dr with
  | true =>
      simp at h
      rcases h with ⟨h1, h2⟩
      subst h1; subst h2
      refine ⟨?_, by simp [releaseLock], by simp, ?_⟩
      · intro _
        simp [releaseLock]
      · intro _
        exact releaseLock_lockFile_of_some _ (by simp [hfile])
  | false =>
  simp only [Bool.false_eq_true, if_false] at h
  by_cases hdev : envName = "dev"
  · rw [if_pos hdev] at h
    cases hupd : update_env_file secret (acquireNewValue ctx v st.pool
        (get_current_secret_value ctx secret envName svc st.files)).2 ef st.files with
    | error e =>
        rw [hupd] at h
        simp at h
        rcases h with ⟨h1, h2⟩
        subst h1; subst h2
        refine ⟨by simp, by simp [releaseLock], by simp, ?_⟩
        intro _
        exact releaseLock_lockFile_of_some _ (by simp [hfile])
    | ok files2 =>
        rw [hupd] at h
        simp at h
        rcases h with ⟨h1, h2⟩
        subst h1; subst h2
        refine ⟨by simp, by simp, by simp [releaseLock], ?_⟩
        intro _
        exact releaseLock_lockFile_of_some _ (by simp [hfile])
  · rw [if_neg hdev] at h
    cases hprod : ctx.prodApply secret (acquireNewValue ctx v st.pool
        (get_current_secret_value ctx secret envName svc st.files)).2 svc rd with
    | error e =>
        rw [hprod] at h
        simp at h
        rcases h with ⟨h1, h2⟩
        subst h1; subst h2
        refine ⟨by simp, by simp [releaseLock], by simp, ?_⟩
        intro _
        exact releaseLock_lockFile_of_some _ (by simp [hfile])
    | ok u3 =>
        rw [hprod] at h
        simp at h
        rcases h with ⟨h1, h2⟩
        subst h1; subst h2
        refine ⟨by simp, by simp, by simp [releaseLock], ?_⟩
        intro _
        exact releaseLock_lockFile_of_some _ (by simp [hfile])

/-! ## Claim theorems -/
/-- Claim C6: a lock record younger than the 5-minute stale threshold makes
`acquire` fail with the holder pid, operation and age; a record at or past
the threshold is discarded and a fresh record written; `release` is
idempotent, deletes the record only when this instance holds it, and (as the
`Drop` impl) runs on every exit of the rotation scope, so any `rotate`
outcome past acquisition leaves no lock record. -/
theorem lock_contract :
    staleLockSeconds = 300 ∧
    (∀ (now : Int) (pid : Nat) (op : String) (ls : LockState) (ld : LockData),
       ls.file = some ld → now - ld.timestamp < staleLockSeconds →
       Lock.acquire now pid op ls =
         (ls, Except.error (RotErr.lockHeld ld.pid ld.operation (now - ld.timestamp)))) ∧
    (∀ (now : Int) (pid : Nat) (op : String) (ls : LockState) (ld : LockData),
       ls.file = some ld → staleLockSeconds ≤ now - ld.timestamp →
       Lock.acquire now pid op ls =
         ({ file := some { pid := pid, timestamp := now, operation := op },
            acquired := true }, Except.ok ())) ∧
    (∀ (now : Int) (pid : Nat) (op : String) (ls : LockState),
       ls.file = none →
       Lock.acquire now pid op ls =
         ({ file := some { pid := pid, timestamp := now, operation := op },
            acquired := true }, Except.ok ())) ∧
    (∀ ls : LockState, Lock.release (Lock.release ls) = Lock.release ls) ∧
    (∀ ls : LockState, ls.acquired = false → (Lock.release ls).file = ls.file) ∧
    (∀ ls : LockState, ls.acquired = true → ls.file.isSome →
       (Lock.release ls).file = none ∧
       ∀ (now : Int) (pid : Nat) (op : String),
         Lock.acquire now pid op (Lock.release ls) =
           ({ file := some { pid := pid, timestamp := now, operation := op },
              acquired := true }, Except.ok ())) ∧
    (∀ (ctx : Ctx) (sn env svc : Option String) (rd : Bool) (v ef : Option String)
       (dr : Bool) (st st' : SysState) (r : Except RotErr String),
       rotate ctx sn env svc rd v ef dr st = some (st', r) →
       r ≠ Except.error RotErr.missingSecretName →
       r ≠ Except.error RotErr.missingEnv →
       (∀ p o a, r ≠ Except.error (RotErr.lockHeld p o a)) →
       st'.lockFile = none) := by
  refine ⟨rfl, ?_, ?_, ?_, ?_, ?_, ?_, ?_⟩
  · intro now pid op ls ld hld hage
    simp [Lock.acquire, hld, hage]
  · intro now pid op ls ld hld hage
    have h : ¬ now - ld.timestamp < staleLockSeconds := not_lt.mpr hage
    simp [Lock.acquire, hld, h]
  · intro now pid op ls h
    simp [Lock.acquire, h]
  · intro ls
    cases h1 : ls.acquired with
    | false => simp [Lock.release, h1]
    | true =>
        cases h2 : ls.file with
        | none => simp [Lock.release, h1, h2]
        | some ld => simp [Lock.release, h1, h2]
  · intro ls h
    simp [Lock.release, h]
  · intro ls h1 h2
    constructor
    · simp [Lock.release, h1, h2]
    · intro now pid op
      have hrel : Lock.release ls = { file := none, acquired := false } := by
        simp [Lock.release, h1, h2]
      rw [hrel]
      simp [Lock.acquire]
  · intro ctx sn env svc rd v ef dr st st' r h h1 h2 h3
    exact (rotate_frame ctx sn env svc rd v ef dr st st' r h).2.2.2 ⟨h1, h2, h3⟩

/-- Witness for `lock_contract`: a fresh lock record held by pid 7 blocks a
second acquire at time 10 with the holder identity and age; at time 400
the record is stale and reclaimed. -/
theorem lock_contract_witness :
    Lock.acquire 10 42 "rotate" lsHeld =
      (lsHeld, Except.error (RotErr.lockHeld 7 "rotate" 10)) ∧
    Lock.acquire 400 42 "rotate" lsHeld =
      ({ file := some { pid := 42, timestamp := 400, operation := "rotate" },
         acquired := true }, Except.ok ()) := by
  constructor
  · exact lock_contract.2.1 10 42 "rotate" lsHeld _ rfl (by decide)
  · exact lock_contract.2.2.1 400 42 "rotate" lsHeld _ rfl (by decide)

/-- Claim C7: `check_cooldown` succeeds when no marker exists or the elapsed
time is at least the configured interval (default 60s), and fails with the
remaining seconds otherwise; the check reads only.  In the rotation state
machine the marker is untouched by dry runs and by every failure, and is set
to the current time exactly by a successful non-dry-run rotation. -/
theorem cooldown_contract :
    defaultCooldownSeconds = 60 ∧
    (∀ (cs : Int) (now : Int), check_cooldown cs none now = Except.ok ()) ∧
    (∀ (cs last now : Int), cs ≤ now - last →
       check_cooldown cs (some last) now = Except.ok ()) ∧
    (∀ (cs last now : Int), now - last < cs →
       check_cooldown cs (some last) now =
         Except.error (RotErr.cooldownActive (cs - (now - last)))) ∧
    (∀ (ctx : Ctx) (sn env svc : Option String) (rd : Bool) (v ef : Option String)
       (st st' : SysState) (r : Except RotErr String),
       rotate ctx sn env svc rd v ef true st = some (st', r) →
       st'.cooldown = st.cooldown) ∧
    (∀ (ctx : Ctx) (sn env svc : Option String) (rd : Bool) (v ef : Option String)
       (dr : Bool) (st st' : SysState) (e : RotErr),
       rotate ctx sn env svc rd v ef dr st = some (st', Except.error e) →
       st'.cooldown = st.cooldown) ∧
    (∀ (ctx : Ctx) (sn env svc : Option String) (rd : Bool) (v ef : Option String)
       (st st' : SysState) (s : String),
       rotate ctx sn env svc rd v ef false st = some (st', Except.ok s) →
       st'.cooldown = some ctx.now) := by
  refine ⟨rfl, ?_, ?_, ?_, ?_, ?_, ?_⟩
  · intro cs now
    rfl
  · intro cs last now h
    have h' : ¬ now - last < cs := not_lt.mpr h
    simp [check_cooldown, h']
  · intro cs last now h
    simp [check_cooldown, h]
  · intro ctx sn env svc rd v ef st st' r h
    exact ((rotate_frame ctx sn env svc rd v ef true st st' r h).1 rfl).1
  · intro ctx sn env svc rd v ef dr st st' e h
    exact ((rotate_frame ctx sn env svc rd v ef dr st st' _ h).2.1 ⟨e, rfl⟩).1
  · intro ctx sn env svc rd v ef st st' s h
    exact (rotate_frame ctx sn env svc rd v ef false st st' _ h).2.2.1 rfl ⟨s, rfl⟩

/-- Witness for `cooldown_contract`: with the default 60-second interval, a
rotation 30 seconds after the marker fails with 30 seconds remaining, and a
rotation 60 seconds after succeeds. -/
theorem cooldown_contract_witness :
    check_cooldown 60 (some 0) 30 = Except.error (RotErr.cooldownActive 30) ∧
    check_cooldown 60 (some 0) 60 = Except.ok () := by
  constructor
  · exact cooldown_contract.2.2.2.1 60 0 30 (by decide)
  · exact cooldown_contract.2.2.1 60 0 60 (by decide)

/-- Claim C2 (code bug): a dry-run rotation that sources its value from the
key pool persists the pool mutation — `pool.save()` runs during value
acquisition, before the dry-run short-circuit — while leaving cooldown,
audit, environment files and connector state untouched.  Evaluated at a
concrete state: the single pool key is promoted to `Active` and saved even
though `dry_run = true`. -/
theorem dry_run_writes_pool_file :
    rotate ctxC (some "API_KEY") (some "dev") none false none none true stDry
      = some ({ stDry with pool := some poolOneActive }, Except.ok "k1") ∧
    some poolOneActive ≠ stDry.pool := by
  constructor
  · rfl
  · decide

/-! ### Value-acquisition lemmas -/
lemma markExhaustedKeys_no_avail (decrypt : String → Except PoolErr String)
    (now : Int) (value : String) :
    ∀ (ks ks' : List PoolKey), (∀ k ∈ ks, k.status ≠ KeyStatus.available) →
      markExhaustedKeys decrypt now value ks = Except.ok ks' →
      ∀ k ∈ ks', k.status ≠ KeyStatus.available := by
  intro ks
  induction ks with
  | nil =>
      intro ks' _ h
      simp [markExhaustedKeys] at h
  | cons k rest ih =>
      intro ks' hna h
      cases hd : decrypt k.encrypted_value with
      | error e => simp [markExhaustedKeys, hd] at h
      | ok d =>
          by_cases hv : d = value
          · simp [markExhaustedKeys, hd, hv] at h
            subst h
            intro x hx
            rcases List.mem_cons.mp hx with hx | hx
            · subst hx
              simp
            · exact hna x (by simp [hx])
          · simp [markExhaustedKeys, hd, hv] at h
            cases hrec : markExhaustedKeys decrypt now value rest with
            | error e => rw [hrec] at h; simp [Except.map] at h
            | ok ks'' =>
                rw [hrec] at h
                simp [Except.map] at h
                subst h
                intro x hx
                rcases List.mem_cons.mp hx with hx | hx
                · subst hx
                  exact hna x (by simp)
                · exact ih ks'' (fun y hy => hna y (by simp [hy])) hrec x hx

lemma get_next_available_error_of_no_avail (decrypt : String → Except PoolErr String)
    (now : Int) (p : KeyPool) (h : ∀ k ∈ p.keys, k.status ≠ KeyStatus.available) :
    ∃ e, get_next_available decrypt now p = (p, Except.error e) := by
  by_cases hne : p.keys.isEmpty
  · exact ⟨PoolErr.noKeysInPool, by simp [get_next_available, hne]⟩
  · refine ⟨PoolErr.poolExhausted, ?_⟩
    simp [get_next_available, hne, selectFirstAvailable_none now p.keys h]

/-- Claim C8: the value for a rotation comes from the explicit argument
first, else from the key pool when one exists, else from random generation.
A pool holding an `Available` key does supply the value: the first
`Available` key is promoted and its decrypted plaintext becomes the new
secret, with the activated pool persisted — both when no current deployed
value could be read and when the current value was first marked exhausted.
An exhausted pool is not fatal — the rotation falls back to a generated
32-character alphanumeric secret (and the persisted pool file is left as it
was, the in-memory mark-exhausted mutation being dropped). -/
theorem acquire_value_precedence (ctx : Ctx) :
    (∀ (v : String) (pool : Option KeyPool) (cur : Option String),
       acquireNewValue ctx (some v) pool cur = (pool, v)) ∧
    (∀ cur : Option String,
       acquireNewValue ctx none none cur = (none, generate_secret ctx.rng)) ∧
    (∀ (p : KeyPool) (cur : Option String),
       (∀ k ∈ p.keys, k.status ≠ KeyStatus.available) →
       acquireNewValue ctx none (some p) cur = (some p, generate_secret ctx.rng)) ∧
    ((generate_secret ctx.rng).data.length = 32 ∧
       ∀ c ∈ (generate_secret ctx.rng).data, c.isAlphanum = true) ∧
    (∀ (p : KeyPool) (keys' : List PoolKey) (k : PoolKey) (i : Nat) (v : String),
       selectFirstAvailable ctx.now p.keys = some (keys', k, i) →
       ctx.decrypt k.encrypted_value = Except.ok v →
       acquireNewValue ctx none (some p) none =
         (some { p with current_index := i, keys := keys',
                        last_rotation := some ctx.now }, v)) ∧
    (∀ (p p1 : KeyPool) (current : String) (keys' : List PoolKey) (k : PoolKey)
       (i : Nat) (v : String),
       mark_exhausted ctx.decrypt ctx.now current p = Except.ok p1 →
       selectFirstAvailable ctx.now p1.keys = some (keys', k, i) →
       ctx.decrypt k.encrypted_value = Except.ok v →
       acquireNewValue ctx none (some p) (some current) =
         (some { p1 with current_index := i, keys := keys',
                         last_rotation := some ctx.now }, v)) := by
  refine ⟨?_, ?_, ?_, ⟨?_, ?_⟩, ?_, ?_⟩
  · intro v pool cur
    rfl
  · intro cur
    rfl
  · intro p cur hna
    have hp1 : ∀ (p1 : KeyPool), (∀ k ∈ p1.keys, k.status ≠ KeyStatus.available) →
        (match get_next_available ctx.decrypt ctx.now p1 with
         | (p2, Except.ok next_key) => (some p2, next_key)
         | (_, Except.error _) => (some p, generate_secret ctx.rng))
          = (some p, generate_secret ctx.rng) := by
      intro p1 h1
      rcases get_next_available_error_of_no_avail ctx.decrypt ctx.now p1 h1 with ⟨e, he⟩
      rw [he]
    cases hcur : cur with
    | none =>
        show (match get_next_available ctx.decrypt ctx.now p with
              | (p2, Except.ok next_key) => (some p2, next_key)
              | (_, Except.error _) => (some p, generate_secret ctx.rng))
            = (some p, generate_secret ctx.rng)
        exact hp1 p hna
    | some current =>
        cases hm : mark_exhausted ctx.decrypt ctx.now current p with
        | error e =>
            show (match (match mark_exhausted ctx.decrypt ctx.now current p with
                         | Except.ok p2 => p2
                         | Except.error _ => p) with
                  | pp => match get_next_available ctx.decrypt ctx.now pp with
                          | (p2, Except.ok next_key) => (some p2, next_key)
                          | (_, Except.error _) => (some p, generate_secret ctx.rng))
                = (some p, generate_secret ctx.rng)
            rw [hm]
            exact hp1 p hna
        | ok p2 =>
            have hp2 : ∀ k ∈ p2.keys, k.status ≠ KeyStatus.available := by
              cases hmk : markExhaustedKeys ctx.decrypt ctx.now current p.keys with
              | error e =>
                  exfalso
                  simp [mark_exhausted, hmk, Except.map] at hm
              | ok ks' =>
                  have : p2 = { p with keys := ks' } := by
                    simp [mark_exhausted, hmk, Except.map] at hm
                    exact hm.symm
                  subst this
                  exact markExhaustedKeys_no_avail ctx.decrypt ctx.now current p.keys ks' hna hmk
            show (match (match mark_exhausted ctx.decrypt ctx.now current p with
                         | Except.ok pp => pp
                         | Except.error _ => p) with
                  | pp => match get_next_available ctx.decrypt ctx.now pp with
                          | (p3, Except.ok next_key) => (some p3, next_key)
                          | (_, Except.error _) => (some p, generate_secret ctx.rng))
                = (some p, generate_secret ctx.rng)
            rw [hm]
            exact hp1 p2 hp2
  · simp [generate_secret]
  · intro c hc
    have hmem := hc
    simp [generate_secret] at hmem
    rcases hmem with ⟨i, _, hval⟩
    have hall : ∀ j : Fin 62, (secretCharset.getD (j : Nat) 'A').isAlphanum = true := by
      decide
    rw [← hval]
    simpa using hall (ctx.rng i)
  · intro p keys' k i v hsel hdec
    have hne : p.keys.isEmpty = false := by
      cases hk : p.keys with
      | nil =>
          rw [hk] at hsel
          simp [selectFirstAvailable] at hsel
      | cons a l => simp [hk]
    have hgna : get_next_available ctx.decrypt ctx.now p
        = ({ p with current_index := i, keys := keys',
                    last_rotation := some ctx.now }, Except.ok v) := by
      simp [get_next_available, hne, hsel, hdec]
    show (match get_next_available ctx.decrypt ctx.now p with
          | (p2, Except.ok next_key) => (some p2, next_key)
          | (_, Except.error _) => (some p, generate_secret ctx.rng))
        = (some { p with current_index := i, keys := keys',
                         last_rotation := some ctx.now }, v)
    rw [hgna]
  · intro p p1 current keys' k i v hmark hsel hdec
    have hne : p1.keys.isEmpty = false := by
      cases hk : p1.keys with
      | nil =>
          rw [hk] at hsel
          simp [selectFirstAvailable] at hsel
      | cons a l => simp [hk]
    have hgna : get_next_available ctx.decrypt ctx.now p1
        = ({ p1 with current_index := i, keys := keys',
                     last_rotation := some ctx.now }, Except.ok v) := by
      simp [get_next_available, hne, hsel, hdec]
    show (match (match mark_exhausted ctx.decrypt ctx.now current p with
                 | Except.ok pp => pp
                 | Except.error _ => p) with
          | pp => match get_next_available ctx.decrypt ctx.now pp with
                  | (p2, Except.ok next_key) => (some p2, next_key)
                  | (_, Except.error _) => (some p, generate_secret ctx.rng))
        = (some { p1 with current_index := i, keys := keys',
                          last_rotation := some ctx.now }, v)
    rw [hmark]
    simp [hgna]

/-- Witness for `acquire_value_precedence`: the explicit value wins over an
existing pool, a pool whose key is `Available` supplies that key (promoted
to `Active` and persisted), and a pool with only an exhausted key falls back
to the generated secret. -/
theorem acquire_value_precedence_witness :
    acquireNewValue ctxC (some "explicit") (some poolOneAvail) none
      = (some poolOneAvail, "explicit") ∧
    acquireNewValue ctxC none (some poolOneAvail) none
      = (some poolOneActive, "k1") ∧
    acquireNewValue ctxC none (some poolOneExhausted) none
      = (some poolOneExhausted, generate_secret ctxC.rng) := by
  refine ⟨?_, ?_, ?_⟩
  · exact (acquire_value_precedence ctxC).1 "explicit" (some poolOneAvail) none
  · exact (acquire_value_precedence ctxC).2.2.2.2.1 poolOneAvail
      [{ encrypted_value := "k1", status := KeyStatus.active,
         last_used := some 1000, rate_limit_hit := none, usage_count := 1 }]
      { encrypted_value := "k1", status := KeyStatus.available,
        last_used := none, rate_limit_hit := none, usage_count := 0 }
      0 "k1" rfl rfl
  · exact (acquire_value_precedence ctxC).2.2.1 poolOneExhausted none (by decide)

/-- Claim C5: an entry exactly as logged verifies, because the signature was
computed over the serialization with the signature field empty and then
filled in; and any mutation of a non-signature field after logging makes
verification fail, provided the signature function does not collide on the
two serializations (the cryptographic assumption on ed25519). -/
theorem audit_signature_contract (sign : AuditEntry → String)
    (encrypt : String → String) (now : Int) (actor secret_name env : String)
    (service : Option String) (action : AuditAction) (success : Bool)
    (masked sv : Option String) :
    verify_entry sign (log_with_value sign encrypt now actor secret_name env
        service action success masked sv) = true ∧
    (∀ e' : AuditEntry,
       e'.signature = (log_with_value sign encrypt now actor secret_name env
           service action success masked sv).signature →
       clearSignature e' ≠ clearSignature (log_with_value sign encrypt now actor
           secret_name env service action success masked sv) →
       (sign (clearSignature e') = sign (clearSignature (log_with_value sign encrypt
           now actor secret_name env service action success masked sv)) →
         clearSignature e' = clearSignature (log_with_value sign encrypt now actor
           secret_name env service action success masked sv)) →
       verify_entry sign e' = false) := by
  have hclear : clearSignature (log_with_value sign encrypt now actor secret_name env
      service action success masked sv)
        = { timestamp := now, actor := actor, secret_name := secret_name, env := env,
            service := service, action := action, success := success,
            masked_secret_preview := masked, encrypted_secret_value := sv.map encrypt,
            signature := "" } := rfl
  have hsigfield : (log_with_value sign encrypt now actor secret_name env
      service action success masked sv).signature
        = sign (clearSignature (log_with_value sign encrypt now actor secret_name env
            service action success masked sv)) := by
    rw [hclear]
    rfl
  constructor
  · simp [verify_entry, hsigfield]
  · intro e' hsig hne hinj
    cases hb : verify_entry sign e' with
    | false => rfl
    | true =>
        exfalso
        have heq : e'.signature = sign (clearSignature e') := by
          simpa [verify_entry] using hb
        exact hne (hinj (heq.symm.trans (hsig.trans hsigfield)))

/-- Witness for `audit_signature_contract`: the concretely logged entry
verifies, and the copy with a mutated secret name does not. -/
theorem audit_signature_contract_witness :
    verify_entry signByName entryLogged = true ∧
    verify_entry signByName entryMutated = false := by
  have h := audit_signature_contract signByName (fun s => s) 0 "alice" "API_KEY"
    "dev" none AuditAction.rotate true (some "***alue") (some "newvalue")
  refine ⟨h.1, ?_⟩
  exact h.2 entryMutated rfl (by decide) (fun hcoll => absurd hcoll (by decide))

/-- Claim C4: computing the rollback value filters the audit history down to
the successful `Rotate` entries of the given secret and env, sorted
descending by timestamp (a permutation of the matching raw entries); with
fewer than two such entries it fails with the not-enough-history error, with
a second-most-recent entry carrying no encrypted value it fails with the
no-stored-value error, and otherwise it returns the decryption of that
encrypted value of that entry. -/
theorem rollback_previous_value (decrypt : String → Option String)
    (entries : List AuditEntry) (secret_name env : String) :
    List.Sorted auditDesc
      ((read_logs entries (some secret_name) (some env) none).filter isSuccessfulRotate) ∧
    ((read_logs entries (some secret_name) (some env) none).filter isSuccessfulRotate).Perm
      ((entries.filter (matchesFilters (some secret_name) (some env))).filter
        isSuccessfulRotate) ∧
    (((read_logs entries (some secret_name) (some env) none).filter
        isSuccessfulRotate).length < 2 →
      get_previous_value decrypt entries secret_name env =
        Except.error (RotErr.notEnoughHistory
          ((read_logs entries (some secret_name) (some env) none).filter
            isSuccessfulRotate).length)) ∧
    (∀ (e0 e1 : AuditEntry) (rest : List AuditEntry),
       (read_logs entries (some secret_name) (some env) none).filter isSuccessfulRotate
         = e0 :: e1 :: rest →
       (e1.encrypted_secret_value = none →
          get_previous_value decrypt entries secret_name env =
            Except.error RotErr.noStoredValue) ∧
       (∀ v, e1.encrypted_secret_value = some v →
          get_previous_value decrypt entries secret_name env =
            match decrypt v with
            | some s => Except.ok s
            | none => Except.error RotErr.decryptionFailed)) := by
  refine ⟨?_, ?_, ?_, ?_⟩
  · exact (List.sorted_insertionSort auditDesc _).filter _
  · exact List.Perm.filter _ (List.perm_insertionSort auditDesc _)
  · intro hlen
    cases hq : (read_logs entries (some secret_name) (some env) none).filter
        isSuccessfulRotate with
    | nil => simp [get_previous_value, hq]
    | cons e0 tail =>
        cases htail : tail with
        | nil =>
            subst htail
            simp [get_previous_value, hq]
        | cons e1 rest =>
            subst htail
            rw [hq] at hlen
            simp at hlen
            omega
  · intro e0 e1 rest hq
    constructor
    · intro hnone
      simp [get_previous_value, hq, hnone]
    · intro v hv
      simp [get_previous_value, hq, hv]

/-- Witness for `rollback_previous_value`: with two successful rotations on
record, the value of the older entry is restored; with only one, the
not-enough-history error carries the count. -/
theorem rollback_previous_value_witness :
    get_previous_value (fun s => some s) [auditOld, auditNew] "API_KEY" "dev"
      = Except.ok "older-value" ∧
    get_previous_value (fun s => some s) [auditNew] "API_KEY" "dev"
      = Except.error (RotErr.notEnoughHistory 1) := by
  constructor
  · exact ((rollback_previous_value (fun s => some s) [auditOld, auditNew]
      "API_KEY" "dev").2.2.2 auditNew auditOld [] (by decide)).2 "older-value" rfl
  · exact (rollback_previous_value (fun s => some s) [auditNew]
      "API_KEY" "dev").2.2.1 (by decide)

/-! ### Base64 round-trip -/
lemma b64idx_chr (g : Nat) (hg : g < 64) : b64idx (b64chr g) = some g := by
  have hfin : ∀ j : Fin 64, b64idx (b64chr (j : Nat)) = some (j : Nat) := by decide
  simpa using hfin ⟨g, hg⟩

lemma b64chr_ne_pad (g : Nat) (hg : g < 64) : b64chr g ≠ '=' := by
  have hfin : ∀ j : Fin 64, b64chr (j : Nat) ≠ '=' := by decide
  simpa using hfin ⟨g, hg⟩

theorem b64_roundtrip : ∀ (bs : List Nat), (∀ b ∈ bs, b < 256) →
    b64D (b64E bs) = some bs
  | [], _ => rfl
  | [b0], h => by
      have h0 : b0 < 256 := h b0 (by simp)
      have h1 : b0 / 4 < 64 := by omega
      have h2 : b0 % 4 * 16 < 64 := by omega
      simp [b64E, b64D, b64idx_chr _ h1, b64idx_chr _ h2]
      omega
  | [b0, b1], h => by
      have h0 : b0 < 256 := h b0 (by simp)
      have h1 : b1 < 256 := h b1 (by simp)
      have g0 : b0 / 4 < 64 := by omega
      have g1 : b0 % 4 * 16 + b1 / 16 < 64 := by omega
      have g2 : b1 % 16 * 4 < 64 := by omega
      have hc : b64chr (b1 % 16 * 4) ≠ '=' := b64chr_ne_pad _ g2
      simp [b64E, b64D, hc, b64idx_chr _ g0, b64idx_chr _ g1, b64idx_chr _ g2]
      omega
  | b0 :: b1 :: b2 :: rest, h => by
      have ih := b64_roundtrip rest (fun b hb => h b (by simp [hb]))
      have h0 : b0 < 256 := h b0 (by simp)
      have h1 : b1 < 256 := h b1 (by simp)
      have h2 : b2 < 256 := h b2 (by simp)
      have g0 : b0 / 4 < 64 := by omega
      have g1 : b0 % 4 * 16 + b1 / 16 < 64 := by omega
      have g2 : b1 % 16 * 4 + b2 / 64 < 64 := by omega
      have g3 : b2 % 64 < 64 := by omega
      have hc2 : b64chr (b1 % 16 * 4 + b2 / 64) ≠ '=' := b64chr_ne_pad _ g2
      have hc3 : b64chr (b2 % 64) ≠ '=' := b64chr_ne_pad _ g3
      simp [b64E, b64D, hc2, hc3, b64idx_chr _ g0, b64idx_chr _ g1,
        b64idx_chr _ g2, b64idx_chr _ g3, ih]
      omega

/-- Claim C9: under the same key, `decrypt_secret` inverts `encrypt_secret`
— the fresh 12-byte nonce prepended to the AEAD ciphertext survives the
base64 round trip and is split off correctly — given AEAD correctness; and
under a different key, decryption fails with the decryption error, given
AEAD authenticity (decryption under another key rejects).  Values are their
UTF-8 byte sequences. -/
theorem encrypt_decrypt_roundtrip (aeadEnc : List Nat → List Nat → List Nat)
    (aeadDecSame aeadDecOther : List Nat → List Nat → Option (List Nat))
    (nonce msg : List Nat) (hn : nonce.length = 12)
    (hbytes : ∀ b ∈ nonce ++ aeadEnc nonce msg, b < 256) :
    (aeadDecSame nonce (aeadEnc nonce msg) = some msg →
       decrypt_secret aeadDecSame (encrypt_secret aeadEnc nonce msg)
         = Except.ok msg) ∧
    (aeadDecOther nonce (aeadEnc nonce msg) = none →
       decrypt_secret aeadDecOther (encrypt_secret aeadEnc nonce msg)
         = Except.error RotErr.decryptionFailed) := by
  have hdec : base64Decode (encrypt_secret aeadEnc nonce msg)
      = some (nonce ++ aeadEnc nonce msg) := by
    simpa [encrypt_secret, base64Encode, base64Decode]
      using b64_roundtrip (nonce ++ aeadEnc nonce msg) hbytes
  have hlen : ¬ (nonce ++ aeadEnc nonce msg).length < 12 := by
    simp [List.length_append, hn]
  have htake : (nonce ++ aeadEnc nonce msg).take 12 = nonce := by
    rw [← hn]
    exact List.take_left nonce _
  have hdrop : (nonce ++ aeadEnc nonce msg).drop 12 = aeadEnc nonce msg := by
    rw [← hn]
    exact List.drop_left nonce _
  constructor
  · intro hsame
    simp [decrypt_secret, hdec, hlen, htake, hdrop, hsame]
    omega
  · intro hother
    simp [decrypt_secret, hdec, hlen, htake, hdrop, hother]
    omega

/-- Witness for `encrypt_decrypt_roundtrip` at a concrete nonce and message,
with the identity AEAD standing for same-key decryption and the rejecting
AEAD standing for decryption under a different key. -/
theorem encrypt_decrypt_roundtrip_witness :
    decrypt_secret (fun _ c => some c)
        (encrypt_secret (fun _ m => m) (List.replicate 12 0) [104, 105])
      = Except.ok [104, 105] ∧
    decrypt_secret (fun _ _ => none)
        (encrypt_secret (fun _ m => m) (List.replicate 12 0) [104, 105])
      = Except.error RotErr.decryptionFailed := by
  constructor
  · exact (encrypt_decrypt_roundtrip (fun _ m => m) (fun _ c => some c)
      (fun _ _ => none) (List.replicate 12 0) [104, 105] (by decide) (by decide)).1 rfl
  · exact (encrypt_decrypt_roundtrip (fun _ m => m) (fun _ c => some c)
      (fun _ _ => none) (List.replicate 12 0) [104, 105] (by decide) (by decide)).2 rfl

/-! ### Environment-file rewrite -/
lemma updateEnvStep_fold (secret_name new_value : String) :
    ∀ (ls : List String) (acc : List Char) (found : Bool),
      ls.foldl (updateEnvStep secret_name new_value) (acc, found)
        = (acc ++ ((ls.map (replaceLineSpec secret_name new_value)).map
             (fun l => l.data ++ ['\n'])).flatten,
           found || ls.any (isMatchLine secret_name)) := by
  intro ls
  induction ls with
  | nil =>
      intro acc found
      simp
  | cons l rest ih =>
      intro acc found
      by_cases hskip : isSkipLine l = true
      · have hm : isMatchLine secret_name l = false := by
          simp [isMatchLine, hskip]
        simp [updateEnvStep, hskip, replaceLineSpec, hm, ih, List.append_assoc]
      · have hskip' : isSkipLine l = false := by
          simpa using hskip
        cases hk : envLineKey l with
        | none =>
            have hm : isMatchLine secret_name l = false := by
              simp [isMatchLine, hk]
            simp [updateEnvStep, hskip', hk, replaceLineSpec, hm, ih, List.append_assoc]
        | some key =>
            by_cases hkey : key = secret_name
            · have hm : isMatchLine secret_name l = true := by
                simp [isMatchLine, hskip', hk, hkey]
              simp [updateEnvStep, hskip', hk, hkey, replaceLineSpec, hm, ih,
                List.append_assoc]
            · have hm : isMatchLine secret_name l = false := by
                simp [isMatchLine, hk, hkey]
              simp [updateEnvStep, hskip', hk, hkey, replaceLineSpec, hm, ih,
                List.append_assoc]

lemma getFile_setFile_same (files : List (String × String)) (p c : String) :
    getFile (setFile files p c) p = some c := by
  induction files with
  | nil => simp [getFile, setFile]
  | cons f rest ih =>
      by_cases h : (f.1 == p) = true
      · simp [setFile, h, getFile]
      · simp [setFile, h, getFile, ih]

lemma getFile_setFile_other (files : List (String × String)) (p c q : String)
    (hq : q ≠ p) : getFile (setFile files p c) q = getFile files q := by
  induction files with
  | nil =>
      have hpq : (p == q) = false := by
        simpa using (Ne.symm hq)
      simp [getFile, setFile, hpq]
  | cons f rest ih =>
      by_cases h : (f.1 == p) = true
      · have hfp : f.1 = p := by simpa using h
        have hpq : (p == q) = false := by
          simpa using (Ne.symm hq)
        have hfq : (f.1 == q) = false := by
          rw [hfp]
          exact hpq
        simp [setFile, h, getFile, hpq, hfq]
      · simp [setFile, h, getFile, ih]

/-- Claim C3 (amended): the rewrite maps every line of the file — comments
and blank lines kept, EVERY line whose key matches the secret replaced by
`KEY=newvalue` (not only the first), other lines kept — and appends
`KEY=newvalue` when no line matched; each output line is terminated with a
line feed.  At the file-store level, the full original contents are written
to the fixed side-path `.birch-rollback` before the environment file is
rewritten, and remain readable there byte-for-byte. -/
theorem update_env_file_spec :
    (∀ (secret_name new_value contents : String),
       update_env_file_contents secret_name new_value contents =
         String.mk (((update_env_spec secret_name new_value contents).map
           (fun l => l.data ++ ['\n'])).flatten)) ∧
    (∀ (secret_name new_value : String) (env_file : Option String)
       (files : List (String × String)) (original : String),
       getFile files (env_file.getD ".env") = some original →
       env_file.getD ".env" ≠ ".birch-rollback" →
       update_env_file secret_name new_value env_file files =
         Except.ok (setFile (setFile files ".birch-rollback" original)
           (env_file.getD ".env")
           (update_env_file_contents secret_name new_value original)) ∧
       getFile (setFile (setFile files ".birch-rollback" original)
           (env_file.getD ".env")
           (update_env_file_contents secret_name new_value original))
         ".birch-rollback" = some original ∧
       getFile (setFile (setFile files ".birch-rollback" original)
           (env_file.getD ".env")
           (update_env_file_contents secret_name new_value original))
         (env_file.getD ".env")
         = some (update_env_file_contents secret_name new_value original)) := by
  constructor
  · intro secret_name new_value contents
    rw [update_env_file_contents, updateEnvStep_fold]
    by_cases hany : (rustLines contents).any (isMatchLine secret_name) = true
    · simp [update_env_spec, hany]
    · have hany' : (rustLines contents).any (isMatchLine secret_name) = false := by
        simpa using hany
      simp [update_env_spec, hany', List.append_assoc]
  · intro secret_name new_value env_file files original hget hne
    refine ⟨?_, ?_, ?_⟩
    · simp [update_env_file, hget]
    · rw [getFile_setFile_other _ _ _ _ (Ne.symm hne)]
      exact getFile_setFile_same _ _ _
    · exact getFile_setFile_same _ _ _

/-- Witness for `update_env_file_spec`: on the scenario file, the rewrite
yields the replaced contents, the rollback side-file holds the original
byte-for-byte, and the comment and the other key survive verbatim. -/
theorem update_env_file_spec_witness :
    update_env_file_contents "API_KEY" "new" envFixture
      = String.mk (((update_env_spec "API_KEY" "new" envFixture).map
          (fun l => l.data ++ ['\n'])).flatten) ∧
    update_env_file_contents "API_KEY" "new" envFixture
      = "# note\nAPI_KEY=new\nOTHER=unchanged\n" ∧
    update_env_file "API_KEY" "new" none envFilesC
      = Except.ok (setFile (setFile envFilesC ".birch-rollback" envFixture) ".env"
          (update_env_file_contents "API_KEY" "new" envFixture)) ∧
    getFile (setFile (setFile envFilesC ".birch-rollback" envFixture) ".env"
        (update_env_file_contents "API_KEY" "new" envFixture)) ".birch-rollback"
      = some envFixture := by
  have h := update_env_file_spec.2 "API_KEY" "new" none envFilesC envFixture rfl
    (by decide)
  exact ⟨update_env_file_spec.1 "API_KEY" "new" envFixture, by decide, h.1, h.2.1⟩

/-- Counterexample to claim C3 as stated: with two lines whose key matches,
BOTH are replaced (the loop never stops after the first match), so the later
matching line is not left unchanged; and a comment line ending in CRLF is
not preserved byte-for-byte (the carriage return is dropped). -/
theorem update_env_replaces_every_match :
    update_env_file_contents "API_KEY" "new" "# c\r\nAPI_KEY=a\nAPI_KEY=b"
      = "# c\nAPI_KEY=new\nAPI_KEY=new\n" ∧
    "API_KEY=b" ∈ rustLines "# c\r\nAPI_KEY=a\nAPI_KEY=b" ∧
    "API_KEY=b" ∉ rustLines (update_env_file_contents "API_KEY" "new"
      "# c\r\nAPI_KEY=a\nAPI_KEY=b") ∧
    ("# c\r\nAPI_KEY=a\nAPI_KEY=b".data.contains '\r') = true ∧
    ((update_env_file_contents "API_KEY" "new"
      "# c\r\nAPI_KEY=a\nAPI_KEY=b").data.contains '\r') = false := by
  decide

end Keystone
